import Mathlib

/-!
# go-books: a CRUD service for books

A shallow embedding of the handlers (`controllers/controllers.go`), the
persistence component (`store.go`) and the data model (`models/book.go`).

The handle `*sql.DB` is a record of the five statements the Store issues, over
an arbitrary database state; `booksTable` is the one concrete database used
where a claim speaks about the stored rows.
-/

namespace GoBooks

/-! ## Data model (`models/book.go`) -/

/-- The Go `error` values the program distinguishes: the sentinel
`sql.ErrNoRows`, compared by identity, and every other error. -/
inductive GoError where
  | ErrNoRows
  | other (detail : String)
  deriving DecidableEq, Repr

/-- Book record: `type Book struct { ID int64; Title string; Author string; Year int }`. -/
structure Book where
  ID : Int
  Title : String
  Author : String
  Year : Int
  deriving DecidableEq, Repr

/-- JSON values written to a response body by `encoding/json`. -/
inductive JSON where
  | null
  | num (n : Int)
  | str (s : String)
  | arr (items : List JSON)
  | obj (fields : List (String × JSON))

/-- Encoding of a `Book` value under its struct tags. -/
def Book.toJSON (b : Book) : JSON :=
  .obj [("id", .num b.ID), ("title", .str b.Title), ("author", .str b.Author),
        ("year", .num b.Year)]

/-- Encoding of a `*Book`: a nil pointer encodes as `null`. -/
def encodeBookPtr : Option Book → JSON
  | none => .null
  | some b => b.toJSON

/-- A Go slice value: `none` is the nil slice, `some xs` a non-nil slice. -/
abbrev GoSlice (α : Type) := Option (List α)

/-- Go `append(s, x)`: appending to the nil slice allocates. -/
def GoSlice.append {α : Type} (s : GoSlice α) (x : α) : GoSlice α :=
  match s with
  | none => some [x]
  | some xs => some (xs ++ [x])

/-- Go `len(s)`: the nil slice has length 0. -/
def GoSlice.len {α : Type} (s : GoSlice α) : Nat :=
  match s with
  | none => 0
  | some xs => xs.length

/-- Encoding of a `[]*Book`: a JSON array, except that the nil slice encodes
as `null`. -/
def encodeBooks : GoSlice (Option Book) → JSON
  | none => .null
  | some xs => .arr (xs.map encodeBookPtr)

/-- Encoding of `map[string]string{"error": msg}`. -/
def encodeError (msg : String) : JSON :=
  .obj [("error", .str msg)]

/-! ## The database handle -/

/-- The cursor returned by `DB.Query`: the outcome of `Scan` on each row for
which `Next` reported true, and the final `rows.Err()`. -/
structure Rows where
  scans : List (Except GoError Book)
  err : Option GoError

/-- The handle `*sql.DB` as the Store uses it, over a database state `σ`: one
field per SQL statement of `store.go`. -/
structure SqlDB (σ : Type) where
  /-- `QueryRow("INSERT INTO books (title, author, year) VALUES ($1, $2, $3)
  RETURNING id", ...).Scan(&id)` -/
  insertReturning : String → String → Int → σ → Except GoError Int × σ
  /-- `QueryRow("SELECT id, title, author, year FROM books WHERE id=$1", id)`
  followed by `row.Scan` -/
  selectByID : Int → σ → Except GoError Book × σ
  /-- `Query("SELECT id, title, author, year FROM books ORDER BY id")` -/
  selectAll : σ → Except GoError Rows × σ
  /-- `Exec("UPDATE books SET title=$1, author=$2, year=$3 WHERE id=$4", ...)`,
  then `res.RowsAffected()` -/
  execUpdate : String → String → Int → Int → σ → Except GoError (Except GoError Int) × σ
  /-- `Exec("DELETE FROM books WHERE id=$1", id)`, then `res.RowsAffected()` -/
  execDelete : Int → σ → Except GoError (Except GoError Int) × σ

/-- A Store method invocation. -/
inductive StoreCall where
  | CreateBook (b : Book)
  | GetBookByID (id : Int)
  | GetAllBooks
  | UpdateBook (id : Int) (b : Book)
  | DeleteBook (id : Int)
  deriving DecidableEq, Repr

/-- The state a request runs against: the database behind the handle, and the
record of Store methods invoked so far. -/
structure World (σ : Type) where
  db : σ
  calls : List StoreCall

/-- Note a Store method invocation. -/
def World.record {σ : Type} (w : World σ) (c : StoreCall) : World σ :=
  { w with calls := w.calls ++ [c] }

/-- The helper `scanBook`: `sql.ErrNoRows` from `Scan` becomes `(nil, nil)`. -/
def scanBook (scan : Except GoError Book) : Except GoError (Option Book) :=
  match scan with
  | .error .ErrNoRows => .ok none
  | .error err => .error err
  | .ok b => .ok (some b)

/-! ## Store (`store.go`) -/

/-- The persistence component: `type Store struct { DB *sql.DB }`. -/
structure Store (σ : Type) where
  DB : SqlDB σ

/-- Constructor `NewStore`. -/
def NewStore {σ : Type} (db : SqlDB σ) : Store σ := { DB := db }

/-- Method `CreateBook`: insert a row and return the generated id. -/
def Store.CreateBook {σ : Type} (s : Store σ) (b : Book) (w : World σ) :
    Except GoError Int × World σ :=
  let w1 := w.record (.CreateBook b)
  match s.DB.insertReturning b.Title b.Author b.Year w1.db with
  | (.error err, d) => (.error err, { w1 with db := d })
  | (.ok id, d) => (.ok id, { w1 with db := d })

/-- Method `GetBookByID`: a missing row is reported as `sql.ErrNoRows`. -/
def Store.GetBookByID {σ : Type} (s : Store σ) (id : Int) (w : World σ) :
    Except GoError Book × World σ :=
  let w1 := w.record (.GetBookByID id)
  let row := s.DB.selectByID id w1.db
  match scanBook row.1 with
  | .error err => (.error err, { w1 with db := row.2 })
  | .ok none => (.error .ErrNoRows, { w1 with db := row.2 })
  | .ok (some book) => (.ok book, { w1 with db := row.2 })

/-- The loop of `GetAllBooks` over the rows of the cursor: the error of the
first failing scan (the method returns `nil, err`), else the slice built by
`append`, starting from `var books []*Book`. -/
def scanAll : List (Except GoError Book) → GoSlice (Option Book) →
    Except GoError (GoSlice (Option Book))
  | [], books => .ok books
  | scan :: rest, books =>
    match scanBook scan with
    | .error err => .error err
    | .ok b => scanAll rest (books.append b)

/-- Method `GetAllBooks`: the pair `(books, err)` it returns. -/
def Store.GetAllBooks {σ : Type} (s : Store σ) (w : World σ) :
    (GoSlice (Option Book) × Option GoError) × World σ :=
  let w1 := w.record .GetAllBooks
  match s.DB.selectAll w1.db with
  | (.error err, d) => ((none, some err), { w1 with db := d })
  | (.ok rows, d) =>
    match scanAll rows.scans none with
    | .error err => ((none, some err), { w1 with db := d })
    | .ok books => ((books, rows.err), { w1 with db := d })

/-- Method `UpdateBook`: zero affected rows is reported as `sql.ErrNoRows`. -/
def Store.UpdateBook {σ : Type} (s : Store σ) (id : Int) (b : Book) (w : World σ) :
    Option GoError × World σ :=
  let w1 := w.record (.UpdateBook id b)
  match s.DB.execUpdate b.Title b.Author b.Year id w1.db with
  | (.error err, d) => (some err, { w1 with db := d })
  | (.ok (.error err), d) => (some err, { w1 with db := d })
  | (.ok (.ok n), d) =>
    if n = 0 then (some .ErrNoRows, { w1 with db := d })
    else (none, { w1 with db := d })

/-- Method `DeleteBook`: zero affected rows is reported as `sql.ErrNoRows`. -/
def Store.DeleteBook {σ : Type} (s : Store σ) (id : Int) (w : World σ) :
    Option GoError × World σ :=
  let w1 := w.record (.DeleteBook id)
  match s.DB.execDelete id w1.db with
  | (.error err, d) => (some err, { w1 with db := d })
  | (.ok (.error err), d) => (some err, { w1 with db := d })
  | (.ok (.ok n), d) =>
    if n = 0 then (some .ErrNoRows, { w1 with db := d })
    else (none, { w1 with db := d })

/-- The package variable `ErrNotFound` of `store.go`: declared, but no Store
method returns it and no handler compares against it. -/
def ErrNotFound : GoError := .other "not found"

/-! ## Handlers (`controllers/controllers.go`) -/

/-- Status `http.StatusOK`. -/
abbrev StatusOK : Int := 200
/-- Status `http.StatusCreated`. -/
abbrev StatusCreated : Int := 201
/-- Status `http.StatusNoContent`. -/
abbrev StatusNoContent : Int := 204
/-- Status `http.StatusBadRequest`. -/
abbrev StatusBadRequest : Int := 400
/-- Status `http.StatusNotFound`. -/
abbrev StatusNotFound : Int := 404
/-- Status `http.StatusInternalServerError`. -/
abbrev StatusInternalServerError : Int := 500

/-- What a handler wrote to its `http.ResponseWriter`. -/
structure Response where
  status : Int
  header : List (String × String)
  body : Option JSON

/-- Simple request validation: the status and message for a decoded book. -/
def validateBookInput (b : Book) : Int × String :=
  if b.Title = "" then (StatusBadRequest, "title is required")
  else if b.Author = "" then (StatusBadRequest, "author is required")
  else if b.Year ≤ 0 then (StatusBadRequest, "year must be a positive integer")
  else (StatusOK, "")

/-- Helper `writeJSON`: content type, status, then the encoded value. -/
def writeJSON (status : Int) (v : JSON) : Response :=
  { status := status, header := [("Content-Type", "application/json")], body := some v }

/-- Helper `writeError`: the body is the map with the single key `error`. -/
def writeError (status : Int) (msg : String) : Response :=
  writeJSON status (encodeError msg)

/-- Error of `strconv` for a malformed number. -/
def ErrSyntax : GoError := .other "invalid syntax"
/-- Error of `strconv` for a number outside the target type. -/
def ErrRange : GoError := .other "value out of range"

/-- The digit loop of `strconv.ParseUint(s, 10, 64)`: a byte outside `0`..`9`
is a syntax error (a letter is a digit of value at least 10, which base 10
rejects), and a value that leaves `uint64` is a range error. -/
def parseUintLoop : List Char → Nat → Except GoError Nat
  | [], n => .ok n
  | c :: cs, n =>
    if '0' ≤ c ∧ c ≤ '9' then
      if n ≥ (2 ^ 64 - 1) / 10 + 1 then .error ErrRange
      else
        let n1 := n * 10 + (c.toNat - '0'.toNat)
        if n1 > 2 ^ 64 - 1 then .error ErrRange else parseUintLoop cs n1
    else .error ErrSyntax

/-- Library function `strconv.ParseUint(s, 10, 64)` on the characters of `s`. -/
def ParseUint (s : List Char) : Except GoError Nat :=
  match s with
  | [] => .error ErrSyntax
  | _ => parseUintLoop s 0

/-- Library function `strconv.ParseInt(s, 10, 64)`: an optional sign, then
`ParseUint`, then the range check against `1 << 63`. -/
def ParseInt (s : String) : Except GoError Int :=
  match s.toList with
  | [] => .error ErrSyntax
  | c :: cs =>
    let neg := decide (c = '-')
    let rest := if c = '+' ∨ c = '-' then cs else c :: cs
    match ParseUint rest with
    | .error err => .error err
    | .ok un =>
      if !neg && decide (un ≥ 2 ^ 63) then .error ErrRange
      else if neg && decide (un > 2 ^ 63) then .error ErrRange
      else .ok (if neg then -(un : Int) else (un : Int))

/-- The application: `type App struct { Store *Store }`. -/
structure App (σ : Type) where
  Store : Store σ

/-- Constructor `NewApp`. -/
def NewApp {σ : Type} (store : Store σ) : App σ := { Store := store }

/-- Handler of `POST /books`; `body` is the outcome of
`json.NewDecoder(r.Body).Decode(&b)`. -/
def App.createBookHandler {σ : Type} (a : App σ) (body : Except GoError Book)
    (w : World σ) : Response × World σ :=
  match body with
  | .error _ => (writeError StatusBadRequest "invalid JSON", w)
  | .ok b =>
    match validateBookInput b with
    | (code, msg) =>
      if code ≠ StatusOK then (writeError code msg, w)
      else
        match a.Store.CreateBook b w with
        | (.error _, w1) => (writeError StatusInternalServerError "failed to create book", w1)
        | (.ok id, w1) => (writeJSON StatusCreated ({ b with ID := id }).toJSON, w1)

/-- Handler of `GET /books`. -/
def App.getAllBooksHandler {σ : Type} (a : App σ) (w : World σ) : Response × World σ :=
  match a.Store.GetAllBooks w with
  | ((_, some _), w1) => (writeError StatusInternalServerError "failed to fetch books", w1)
  | ((books, none), w1) => (writeJSON StatusOK (encodeBooks books), w1)

/-- Handler of `GET /books/{id}`; `idStr` is `chi.URLParam(r, "id")`. -/
def App.getBookHandler {σ : Type} (a : App σ) (idStr : String) (w : World σ) :
    Response × World σ :=
  match ParseInt idStr with
  | .error _ => (writeError StatusBadRequest "invalid id", w)
  | .ok id =>
    match a.Store.GetBookByID id w with
    | (.error err, w1) =>
      if err = .ErrNoRows then (writeError StatusNotFound "book not found", w1)
      else (writeError StatusInternalServerError "failed to fetch book", w1)
    | (.ok b, w1) => (writeJSON StatusOK b.toJSON, w1)

/-- Handler of `PUT /books/{id}`. -/
def App.updateBookHandler {σ : Type} (a : App σ) (idStr : String)
    (body : Except GoError Book) (w : World σ) : Response × World σ :=
  match ParseInt idStr with
  | .error _ => (writeError StatusBadRequest "invalid id", w)
  | .ok id =>
    match body with
    | .error _ => (writeError StatusBadRequest "invalid JSON", w)
    | .ok b =>
      match validateBookInput b with
      | (code, msg) =>
        if code ≠ StatusOK then (writeError code msg, w)
        else
          match a.Store.UpdateBook id b w with
          | (some err, w1) =>
            if err = .ErrNoRows then (writeError StatusNotFound "book not found", w1)
            else (writeError StatusInternalServerError "failed to update book", w1)
          | (none, w1) => (writeJSON StatusOK ({ b with ID := id }).toJSON, w1)

/-- Handler of `DELETE /books/{id}`: on success only the status is written. -/
def App.deleteBookHandler {σ : Type} (a : App σ) (idStr : String) (w : World σ) :
    Response × World σ :=
  match ParseInt idStr with
  | .error _ => (writeError StatusBadRequest "invalid id", w)
  | .ok id =>
    match a.Store.DeleteBook id w with
    | (some err, w1) =>
      if err = .ErrNoRows then (writeError StatusNotFound "book not found", w1)
      else (writeError StatusInternalServerError "failed to delete book", w1)
    | (none, w1) => ({ status := StatusNoContent, header := [], body := none }, w1)

/-- A request as the router dispatches it: the route, the `id` path parameter
and the outcome of decoding the body, where the route has them. -/
inductive Request where
  | create (body : Except GoError Book)
  | list
  | get (idStr : String)
  | update (idStr : String) (body : Except GoError Book)
  | delete (idStr : String)

/-- The route table `Routes`. -/
def App.Routes {σ : Type} (a : App σ) (r : Request) (w : World σ) : Response × World σ :=
  match r with
  | .create body => a.createBookHandler body w
  | .list => a.getAllBooksHandler w
  | .get idStr => a.getBookHandler idStr w
  | .update idStr body => a.updateBookHandler idStr body w
  | .delete idStr => a.deleteBookHandler idStr w

/-- Serve a sequence of requests one after the other; the final state. -/
def App.serve {σ : Type} (a : App σ) : List Request → World σ → World σ
  | [], w => w
  | r :: rs, w => a.serve rs (a.Routes r w).2

/-! ## The books table -/

/-- Modelled from the spec: the migration `migrations/001_create_books_table.sql`
and the SQL engine are not part of the sources. One table with columns id
(primary key, auto-generated), title, author, year; ids are handed out by a
counter, increasing from 1. `faults` schedules statement failures: each
statement consumes the head, and `some detail` makes it fail with a generic
error and no effect on the rows. -/
structure Table where
  rows : List Book
  seq : Nat
  faults : List (Option String)

/-- The fault scheduled for the next statement, and the table past it. -/
def Table.nextFault (t : Table) : Option String × Table :=
  match t.faults with
  | [] => (none, t)
  | f :: fs => (f, { t with faults := fs })

/-- Statement `INSERT INTO books (title, author, year) VALUES ($1, $2, $3)
RETURNING id`. -/
def Table.insertReturning (title author : String) (year : Int) (t : Table) :
    Except GoError Int × Table :=
  match t.nextFault with
  | (some detail, t1) => (.error (.other detail), t1)
  | (none, t1) =>
    let id : Int := ((t1.seq + 1 : Nat) : Int)
    (.ok id, { t1 with rows := t1.rows ++ [⟨id, title, author, year⟩], seq := t1.seq + 1 })

/-- Statement `SELECT id, title, author, year FROM books WHERE id=$1`, scanned
as a single row: no matching row is `sql.ErrNoRows`. -/
def Table.selectByID (id : Int) (t : Table) : Except GoError Book × Table :=
  match t.nextFault with
  | (some detail, t1) => (.error (.other detail), t1)
  | (none, t1) =>
    match t1.rows.find? (fun r => decide (r.ID = id)) with
    | none => (.error .ErrNoRows, t1)
    | some r => (.ok r, t1)

/-- Statement `SELECT id, title, author, year FROM books ORDER BY id`. -/
def Table.selectAll (t : Table) : Except GoError Rows × Table :=
  match t.nextFault with
  | (some detail, t1) => (.error (.other detail), t1)
  | (none, t1) =>
    (.ok { scans := (t1.rows.insertionSort (fun x y => x.ID ≤ y.ID)).map .ok, err := none }, t1)

/-- Statement `UPDATE books SET title=$1, author=$2, year=$3 WHERE id=$4`, with
the number of rows it affected. -/
def Table.execUpdate (title author : String) (year : Int) (id : Int) (t : Table) :
    Except GoError (Except GoError Int) × Table :=
  match t.nextFault with
  | (some detail, t1) => (.error (.other detail), t1)
  | (none, t1) =>
    let set := fun (r : Book) =>
      if r.ID = id then { r with Title := title, Author := author, Year := year } else r
    (.ok (.ok ((t1.rows.countP (fun r => decide (r.ID = id)) : Nat) : Int)),
      { t1 with rows := t1.rows.map set })

/-- Statement `DELETE FROM books WHERE id=$1`, with the number of rows it
affected. -/
def Table.execDelete (id : Int) (t : Table) : Except GoError (Except GoError Int) × Table :=
  match t.nextFault with
  | (some detail, t1) => (.error (.other detail), t1)
  | (none, t1) =>
    (.ok (.ok ((t1.rows.countP (fun r => decide (r.ID = id)) : Nat) : Int)),
      { t1 with rows := t1.rows.filter (fun r => !decide (r.ID = id)) })

/-- The handle onto the books table. -/
def booksTable : SqlDB Table :=
  { insertReturning := Table.insertReturning
    selectByID := Table.selectByID
    selectAll := Table.selectAll
    execUpdate := Table.execUpdate
    execDelete := Table.execDelete }

/-- The application over the books table. -/
def booksApp : App Table := NewApp (NewStore booksTable)

/-- A freshly migrated database: no rows, nothing called yet. -/
def emptyWorld (faults : List (Option String)) : World Table :=
  { db := { rows := [], seq := 0, faults := faults }, calls := [] }

/-- A database holding the single book of the end-to-end scenario, under id 1. -/
def orwellWorld : World Table :=
  { db := { rows := [⟨1, "1984", "George Orwell", 1949⟩], seq := 1, faults := [] },
    calls := [] }

/-- The validity predicate of the data model: non-empty title, non-empty
author, positive year. -/
def Book.valid (b : Book) : Prop :=
  b.Title ≠ "" ∧ b.Author ≠ "" ∧ b.Year > 0

/-- A valid base-10 integer in the spec's sense: an optional sign followed by
one or more decimal digits. -/
def isBase10Integer (s : String) : Bool :=
  match s.toList with
  | [] => false
  | c :: cs =>
    if c = '+' ∨ c = '-' then !cs.isEmpty && cs.all Char.isDigit
    else (c :: cs).all Char.isDigit

/-! ## Validation -/

theorem validateBookInput_ok_iff (b : Book) :
    (validateBookInput b).1 = StatusOK ↔ b.Title ≠ "" ∧ b.Author ≠ "" ∧ b.Year > 0 := by
  unfold validateBookInput
  by_cases ht : b.Title = "" <;> by_cases ha : b.Author = "" <;> by_cases hy : b.Year ≤ 0 <;>
    (simp [ht, ha, hy]; try omega)

theorem validateBookInput_bad (b : Book) (h : (validateBookInput b).1 ≠ StatusOK) :
    (validateBookInput b).1 = StatusBadRequest := by
  unfold validateBookInput at h ⊢
  by_cases ht : b.Title = "" <;> by_cases ha : b.Author = "" <;> by_cases hy : b.Year ≤ 0 <;>
    simp_all

/-- C1: `validateBookInput` returns `(200, "")` exactly for a book with non-empty
title, non-empty author and positive year; otherwise it returns 400 with the
message of the first offending field, in the order title, author, year. -/
theorem validateBookInput_spec (b : Book) :
    (validateBookInput b = (200, "") ↔ b.Title ≠ "" ∧ b.Author ≠ "" ∧ b.Year > 0) ∧
    (b.Title = "" → validateBookInput b = (400, "title is required")) ∧
    (b.Title ≠ "" ∧ b.Author = "" → validateBookInput b = (400, "author is required")) ∧
    (b.Title ≠ "" ∧ b.Author ≠ "" ∧ b.Year ≤ 0 →
      validateBookInput b = (400, "year must be a positive integer")) := by
  unfold validateBookInput
  by_cases ht : b.Title = "" <;> by_cases ha : b.Author = "" <;> by_cases hy : b.Year ≤ 0 <;>
    (simp [ht, ha, hy]; try omega)

/-! ## Handlers over an arbitrary database -/

theorem Store.UpdateBook_calls {σ : Type} (s : Store σ) (id : Int) (b : Book) (w : World σ) :
    (s.UpdateBook id b w).2.calls = w.calls ++ [.UpdateBook id b] := by
  unfold Store.UpdateBook
  simp only [World.record]
  split
  · rfl
  · rfl
  · split <;> rfl

theorem Store.CreateBook_calls {σ : Type} (s : Store σ) (b : Book) (w : World σ) :
    (s.CreateBook b w).2.calls = w.calls ++ [.CreateBook b] := by
  unfold Store.CreateBook
  simp only [World.record]
  split <;> rfl

theorem createBookHandler_rejects {σ : Type} (a : App σ) (b : Book) (w : World σ)
    (h : (validateBookInput b).1 ≠ StatusOK) :
    a.createBookHandler (.ok b) w =
      (writeError StatusBadRequest (validateBookInput b).2, w) := by
  have h4 := validateBookInput_bad b h
  unfold App.createBookHandler
  simp only [h4]
  exact if_pos (by decide)

theorem createBookHandler_accepts {σ : Type} (a : App σ) (b : Book) (w : World σ)
    (h : (validateBookInput b).1 = StatusOK) :
    a.createBookHandler (.ok b) w =
      match a.Store.CreateBook b w with
      | (.error _, w1) => (writeError StatusInternalServerError "failed to create book", w1)
      | (.ok id, w1) => (writeJSON StatusCreated ({ b with ID := id }).toJSON, w1) := by
  unfold App.createBookHandler
  simp only [h, ne_eq, not_true_eq_false, if_false]

theorem updateBookHandler_rejects {σ : Type} (a : App σ) (idStr : String) (id : Int)
    (b : Book) (w : World σ) (hid : ParseInt idStr = .ok id)
    (h : (validateBookInput b).1 ≠ StatusOK) :
    a.updateBookHandler idStr (.ok b) w =
      (writeError StatusBadRequest (validateBookInput b).2, w) := by
  have h4 := validateBookInput_bad b h
  unfold App.updateBookHandler
  simp only [hid, h4]
  exact if_pos (by decide)

theorem updateBookHandler_accepts {σ : Type} (a : App σ) (idStr : String) (id : Int)
    (b : Book) (w : World σ) (hid : ParseInt idStr = .ok id)
    (h : (validateBookInput b).1 = StatusOK) :
    a.updateBookHandler idStr (.ok b) w =
      match a.Store.UpdateBook id b w with
      | (some err, w1) =>
        if err = .ErrNoRows then (writeError StatusNotFound "book not found", w1)
        else (writeError StatusInternalServerError "failed to update book", w1)
      | (none, w1) => (writeJSON StatusOK ({ b with ID := id }).toJSON, w1) := by
  unfold App.updateBookHandler
  simp only [hid, h, ne_eq, not_true_eq_false, if_false]

/-- C2: a create request whose decoded body has an empty title, an empty author
or a non-positive year is answered 400, and the state after the request is the
state before it: no Store call is recorded and the database is untouched. -/
theorem createBookHandler_invalid_not_persisted {σ : Type} (a : App σ) (b : Book)
    (w : World σ) (h : b.Title = "" ∨ b.Author = "" ∨ b.Year ≤ 0) :
    (a.createBookHandler (.ok b) w).1.status = 400 ∧
    (a.createBookHandler (.ok b) w).2.calls = w.calls ∧
    (a.createBookHandler (.ok b) w).2.db = w.db := by
  have hne : (validateBookInput b).1 ≠ StatusOK := by
    rw [ne_eq, validateBookInput_ok_iff]
    rintro ⟨h1, h2, h3⟩
    rcases h with h | h | h
    · exact h1 h
    · exact h2 h
    · omega
  rw [createBookHandler_rejects a b w hne]
  exact ⟨rfl, rfl, rfl⟩

/-! ## Path ids -/

theorem parseUintLoop_ok_digits (cs : List Char) (n un : Nat)
    (h : parseUintLoop cs n = .ok un) : cs.all Char.isDigit = true := by
  induction cs generalizing n with
  | nil => rfl
  | cons c cs ih =>
    unfold parseUintLoop at h
    split at h
    · rename_i hc
      split at h
      · cases h
      · simp only at h
        split at h
        · cases h
        · have hd : c.isDigit = true := by
            have h0 : (48 : Nat) ≤ c.toNat := hc.1
            have h9 : c.toNat ≤ (57 : Nat) := hc.2
            simp only [Char.isDigit, Bool.and_eq_true, decide_eq_true_eq, ge_iff_le]
            exact ⟨h0, h9⟩
          simp only [List.all_cons, hd, Bool.true_and]
          exact ih _ h
    · cases h

theorem ParseUint_ok_digits (cs : List Char) (un : Nat) (h : ParseUint cs = .ok un) :
    cs ≠ [] ∧ cs.all Char.isDigit = true := by
  unfold ParseUint at h
  cases cs with
  | nil => cases h
  | cons c cs => exact ⟨List.cons_ne_nil _ _, parseUintLoop_ok_digits _ _ _ h⟩

theorem ParseInt_ok_isBase10Integer (s : String) (id : Int) (h : ParseInt s = .ok id) :
    isBase10Integer s = true := by
  unfold ParseInt at h
  unfold isBase10Integer
  cases hs : s.toList with
  | nil => rw [hs] at h; cases h
  | cons c cs =>
    rw [hs] at h
    simp only at h
    cases hu : ParseUint (if c = '+' ∨ c = '-' then cs else c :: cs) with
    | error e => rw [hu] at h; cases h
    | ok un =>
      have hd := ParseUint_ok_digits _ _ hu
      by_cases hc : c = '+' ∨ c = '-'
      · simp only [hc, if_true] at hd ⊢
        cases cs with
        | nil => exact absurd rfl hd.1
        | cons d ds => simpa using hd.2
      · simp only [hc, if_false] at hd ⊢
        exact hd.2

theorem ParseInt_fails_of_not_integer (s : String) (h : isBase10Integer s = false) :
    ∃ e, ParseInt s = .error e := by
  cases hp : ParseInt s with
  | error e => exact ⟨e, rfl⟩
  | ok id =>
    have := ParseInt_ok_isBase10Integer s id hp
    rw [h] at this
    cases this

/-- C6: a path id that is not a base-10 integer (such as `abc`) is answered
400 with the error `invalid id` by the get, update and delete handlers, and
the state is left as it was: no Store method is called. -/
theorem invalid_id_bad_request {σ : Type} (a : App σ) (idStr : String)
    (body : Except GoError Book) (w : World σ) (h : isBase10Integer idStr = false) :
    a.getBookHandler idStr w = (writeError 400 "invalid id", w) ∧
    a.updateBookHandler idStr body w = (writeError 400 "invalid id", w) ∧
    a.deleteBookHandler idStr w = (writeError 400 "invalid id", w) := by
  obtain ⟨e, he⟩ := ParseInt_fails_of_not_integer idStr h
  unfold App.getBookHandler App.updateBookHandler App.deleteBookHandler
  simp only [he, and_self]

/-! ## Store outcome and response status -/

theorem getBookHandler_status {σ : Type} (a : App σ) (idStr : String) (id : Int)
    (w : World σ) (hid : ParseInt idStr = .ok id) :
    (a.getBookHandler idStr w).1.status =
      match (a.Store.GetBookByID id w).1 with
      | .error err => if err = .ErrNoRows then StatusNotFound else StatusInternalServerError
      | .ok _ => StatusOK := by
  unfold App.getBookHandler
  simp only [hid]
  rcases hr : a.Store.GetBookByID id w with ⟨r, w1⟩
  cases r with
  | error err => by_cases he : err = .ErrNoRows <;> simp [he, writeError, writeJSON]
  | ok bk => simp [writeJSON]

theorem updateBookHandler_status {σ : Type} (a : App σ) (idStr : String) (id : Int)
    (b : Book) (w : World σ) (hid : ParseInt idStr = .ok id)
    (h : (validateBookInput b).1 = StatusOK) :
    (a.updateBookHandler idStr (.ok b) w).1.status =
      match (a.Store.UpdateBook id b w).1 with
      | some err => if err = .ErrNoRows then StatusNotFound else StatusInternalServerError
      | none => StatusOK := by
  rw [updateBookHandler_accepts a idStr id b w hid h]
  rcases hr : a.Store.UpdateBook id b w with ⟨r, w1⟩
  cases r with
  | some err => by_cases he : err = .ErrNoRows <;> simp [he, writeError, writeJSON]
  | none => simp [writeJSON]

theorem deleteBookHandler_status {σ : Type} (a : App σ) (idStr : String) (id : Int)
    (w : World σ) (hid : ParseInt idStr = .ok id) :
    (a.deleteBookHandler idStr w).1.status =
      match (a.Store.DeleteBook id w).1 with
      | some err => if err = .ErrNoRows then StatusNotFound else StatusInternalServerError
      | none => StatusNoContent := by
  unfold App.deleteBookHandler
  simp only [hid]
  rcases hr : a.Store.DeleteBook id w with ⟨r, w1⟩
  cases r with
  | some err => by_cases he : err = .ErrNoRows <;> simp [he, writeError, writeJSON]
  | none => simp

/-- C5: for a request that passed id parsing (and, for update, body decoding
and validation), the status of the get, update and delete handlers follows
the Store outcome alone: 404 exactly on `sql.ErrNoRows`, 500 exactly on any
other error, and 200, 200, 204 exactly when the Store reports no error. -/
theorem handlers_status_from_store {σ : Type} (a : App σ) (idStr : String) (id : Int)
    (b : Book) (w : World σ) (hid : ParseInt idStr = .ok id)
    (hb : (validateBookInput b).1 = StatusOK) :
    (((a.getBookHandler idStr w).1.status = 404 ↔
        (a.Store.GetBookByID id w).1 = .error .ErrNoRows) ∧
     ((a.getBookHandler idStr w).1.status = 500 ↔
        ∃ e, e ≠ GoError.ErrNoRows ∧ (a.Store.GetBookByID id w).1 = .error e) ∧
     ((a.getBookHandler idStr w).1.status = 200 ↔
        ∃ bk, (a.Store.GetBookByID id w).1 = .ok bk)) ∧
    (((a.updateBookHandler idStr (.ok b) w).1.status = 404 ↔
        (a.Store.UpdateBook id b w).1 = some .ErrNoRows) ∧
     ((a.updateBookHandler idStr (.ok b) w).1.status = 500 ↔
        ∃ e, e ≠ GoError.ErrNoRows ∧ (a.Store.UpdateBook id b w).1 = some e) ∧
     ((a.updateBookHandler idStr (.ok b) w).1.status = 200 ↔
        (a.Store.UpdateBook id b w).1 = none)) ∧
    (((a.deleteBookHandler idStr w).1.status = 404 ↔
        (a.Store.DeleteBook id w).1 = some .ErrNoRows) ∧
     ((a.deleteBookHandler idStr w).1.status = 500 ↔
        ∃ e, e ≠ GoError.ErrNoRows ∧ (a.Store.DeleteBook id w).1 = some e) ∧
     ((a.deleteBookHandler idStr w).1.status = 204 ↔
        (a.Store.DeleteBook id w).1 = none)) := by
  rw [getBookHandler_status a idStr id w hid, updateBookHandler_status a idStr id b w hid hb,
    deleteBookHandler_status a idStr id w hid]
  refine ⟨?_, ?_, ?_⟩
  · cases (a.Store.GetBookByID id w).1 with
    | error err => by_cases he : err = .ErrNoRows <;> simp [he]
    | ok bk => simp
  · cases (a.Store.UpdateBook id b w).1 with
    | some err => by_cases he : err = .ErrNoRows <;> simp [he]
    | none => simp
  · cases (a.Store.DeleteBook id w).1 with
    | some err => by_cases he : err = .ErrNoRows <;> simp [he]
    | none => simp

theorem createBookHandler_world {σ : Type} (a : App σ) (b : Book) (w : World σ)
    (hb : (validateBookInput b).1 = StatusOK) :
    (a.createBookHandler (.ok b) w).2 = (a.Store.CreateBook b w).2 := by
  rw [createBookHandler_accepts a b w hb]
  rcases hr : a.Store.CreateBook b w with ⟨r, w1⟩
  cases r <;> rfl

theorem updateBookHandler_world {σ : Type} (a : App σ) (idStr : String) (id : Int)
    (b : Book) (w : World σ) (hid : ParseInt idStr = .ok id)
    (hb : (validateBookInput b).1 = StatusOK) :
    (a.updateBookHandler idStr (.ok b) w).2 = (a.Store.UpdateBook id b w).2 := by
  rw [updateBookHandler_accepts a idStr id b w hid hb]
  rcases hr : a.Store.UpdateBook id b w with ⟨r, w1⟩
  cases r with
  | some err => by_cases he : err = .ErrNoRows <;> simp [he]
  | none => rfl

theorem getBookHandler_world {σ : Type} (a : App σ) (idStr : String) (id : Int)
    (w : World σ) (hid : ParseInt idStr = .ok id) :
    (a.getBookHandler idStr w).2 = (a.Store.GetBookByID id w).2 := by
  unfold App.getBookHandler
  simp only [hid]
  rcases hr : a.Store.GetBookByID id w with ⟨r, w1⟩
  cases r with
  | error err => by_cases he : err = .ErrNoRows <;> simp [he]
  | ok bk => rfl

theorem deleteBookHandler_world {σ : Type} (a : App σ) (idStr : String) (id : Int)
    (w : World σ) (hid : ParseInt idStr = .ok id) :
    (a.deleteBookHandler idStr w).2 = (a.Store.DeleteBook id w).2 := by
  unfold App.deleteBookHandler
  simp only [hid]
  rcases hr : a.Store.DeleteBook id w with ⟨r, w1⟩
  cases r with
  | some err => by_cases he : err = .ErrNoRows <;> simp [he]
  | none => rfl

theorem getAllBooksHandler_world {σ : Type} (a : App σ) (w : World σ) :
    (a.getAllBooksHandler w).2 = (a.Store.GetAllBooks w).2 := by
  unfold App.getAllBooksHandler
  rcases hr : a.Store.GetAllBooks w with ⟨⟨books, err⟩, w1⟩
  cases err <;> rfl

/-! ## Order of the checks -/

/-- C10: the checks run in the order path id, JSON decoding, field validation,
persistence, and the first failing one decides the response. An unparsable id
gives 400 `invalid id` whatever the body; else an undecodable body gives 400
`invalid JSON`; else invalid fields give 400 with the validation message; in
these cases the state is untouched (no Store call). Only when all pass is the
Store called, once. `createBookHandler` does the same without the id step. -/
theorem validation_order {σ : Type} (a : App σ) (w : World σ) :
    (∀ idStr body e, ParseInt idStr = .error e →
      a.updateBookHandler idStr body w = (writeError 400 "invalid id", w)) ∧
    (∀ idStr id e, ParseInt idStr = .ok id →
      a.updateBookHandler idStr (.error e) w = (writeError 400 "invalid JSON", w)) ∧
    (∀ idStr id b, ParseInt idStr = .ok id → (validateBookInput b).1 ≠ 200 →
      a.updateBookHandler idStr (.ok b) w = (writeError 400 (validateBookInput b).2, w)) ∧
    (∀ idStr id b, ParseInt idStr = .ok id → (validateBookInput b).1 = 200 →
      (a.updateBookHandler idStr (.ok b) w).2 = (a.Store.UpdateBook id b w).2 ∧
      (a.updateBookHandler idStr (.ok b) w).2.calls = w.calls ++ [.UpdateBook id b]) ∧
    (∀ e, a.createBookHandler (.error e) w = (writeError 400 "invalid JSON", w)) ∧
    (∀ b, (validateBookInput b).1 ≠ 200 →
      a.createBookHandler (.ok b) w = (writeError 400 (validateBookInput b).2, w)) ∧
    (∀ b, (validateBookInput b).1 = 200 →
      (a.createBookHandler (.ok b) w).2 = (a.Store.CreateBook b w).2 ∧
      (a.createBookHandler (.ok b) w).2.calls = w.calls ++ [.CreateBook b]) := by
  refine ⟨?_, ?_, ?_, ?_, ?_, ?_, ?_⟩
  · intro idStr body e he
    unfold App.updateBookHandler
    simp only [he]
  · intro idStr id e hid
    unfold App.updateBookHandler
    simp only [hid]
  · intro idStr id b hid hb
    exact updateBookHandler_rejects a idStr id b w hid hb
  · intro idStr id b hid hb
    have key := updateBookHandler_world a idStr id b w hid hb
    exact ⟨key, by rw [key, Store.UpdateBook_calls]⟩
  · intro e
    rfl
  · intro b hb
    exact createBookHandler_rejects a b w hb
  · intro b hb
    have key := createBookHandler_world a b w hb
    exact ⟨key, by rw [key, Store.CreateBook_calls]⟩

/-! ## The books table: statements -/

theorem Table.nextFault_healthy (t : Table) (hf : t.faults = []) : t.nextFault = (none, t) := by
  unfold Table.nextFault
  rw [hf]

theorem Table.selectByID_healthy (id : Int) (t : Table) (hf : t.faults = []) :
    Table.selectByID id t =
      match t.rows.find? (fun r => decide (r.ID = id)) with
      | none => (.error .ErrNoRows, t)
      | some r => (.ok r, t) := by
  unfold Table.selectByID
  rw [Table.nextFault_healthy t hf]

theorem Table.execUpdate_healthy (title author : String) (year : Int) (id : Int) (t : Table)
    (hf : t.faults = []) :
    Table.execUpdate title author year id t =
      (.ok (.ok ((t.rows.countP (fun r => decide (r.ID = id)) : Nat) : Int)),
        { t with rows := t.rows.map (fun r =>
            if r.ID = id then { r with Title := title, Author := author, Year := year }
            else r) }) := by
  unfold Table.execUpdate
  rw [Table.nextFault_healthy t hf]

theorem Table.execDelete_healthy (id : Int) (t : Table) (hf : t.faults = []) :
    Table.execDelete id t =
      (.ok (.ok ((t.rows.countP (fun r => decide (r.ID = id)) : Nat) : Int)),
        { t with rows := t.rows.filter (fun r => !decide (r.ID = id)) }) := by
  unfold Table.execDelete
  rw [Table.nextFault_healthy t hf]

theorem countP_id_eq_zero_iff (rows : List Book) (n : Int) :
    ((rows.countP (fun r => decide (r.ID = n)) : Nat) : Int) = 0 ↔ ¬ ∃ r ∈ rows, r.ID = n := by
  rw [Int.natCast_eq_zero, List.countP_eq_zero]
  simp

theorem Table.insertReturning_cases (title author : String) (year : Int) (t : Table) :
    (∃ d, (Table.insertReturning title author year t).1 = .error (.other d) ∧
      (Table.insertReturning title author year t).2.rows = t.rows) ∨
    ((Table.insertReturning title author year t).1 = .ok ((t.seq + 1 : Nat) : Int) ∧
      (Table.insertReturning title author year t).2.rows =
        t.rows ++ [⟨((t.seq + 1 : Nat) : Int), title, author, year⟩]) := by
  unfold Table.insertReturning Table.nextFault
  cases t.faults with
  | nil => exact Or.inr ⟨rfl, rfl⟩
  | cons f fs =>
    cases f with
    | none => exact Or.inr ⟨rfl, rfl⟩
    | some d => exact Or.inl ⟨d, rfl, rfl⟩

theorem Store.CreateBook_eq {σ : Type} (s : Store σ) (b : Book) (w : World σ) :
    (s.CreateBook b w).1 = (s.DB.insertReturning b.Title b.Author b.Year w.db).1 ∧
    (s.CreateBook b w).2.db = (s.DB.insertReturning b.Title b.Author b.Year w.db).2 := by
  unfold Store.CreateBook
  simp only [World.record]
  rcases s.DB.insertReturning b.Title b.Author b.Year w.db with ⟨r, d⟩
  cases r <;> exact ⟨rfl, rfl⟩

/-! ## Create -/

/-- C3: over the books table, a create request whose body decodes to a book
with non-empty title, non-empty author and positive year, and whose insert
succeeds with id `id`, is answered 201 with the book of that id and the
title, author and year of the input; the id is nonzero, it does not depend on
the id field of the body, and the row is stored. -/
theorem createBookHandler_created (b : Book) (w : World Table) (id : Int)
    (hv : b.Title ≠ "" ∧ b.Author ≠ "" ∧ b.Year > 0)
    (hs : (booksApp.Store.CreateBook b w).1 = .ok id) :
    (booksApp.createBookHandler (.ok b) w).1 =
      writeJSON 201 (Book.toJSON ⟨id, b.Title, b.Author, b.Year⟩) ∧
    id ≠ 0 ∧
    (∀ k, (booksApp.Store.CreateBook { b with ID := k } w).1 = .ok id) ∧
    (⟨id, b.Title, b.Author, b.Year⟩ : Book) ∈
      (booksApp.createBookHandler (.ok b) w).2.db.rows := by
  have hok := (validateBookInput_ok_iff b).2 hv
  have heq := Store.CreateBook_eq booksApp.Store b w
  have heqk := fun k => Store.CreateBook_eq booksApp.Store { b with ID := k } w
  have hcase := Table.insertReturning_cases b.Title b.Author b.Year w.db
  have hins : (Table.insertReturning b.Title b.Author b.Year w.db).1 = .ok id := by
    rw [← hs, heq.1]; rfl
  rcases hcase with ⟨d, hd, _⟩ | ⟨h1, h2⟩
  · rw [hd] at hins; cases hins
  · have hid : id = ((w.db.seq + 1 : Nat) : Int) := by
      rw [h1] at hins; cases hins; rfl
    refine ⟨?_, ?_, ?_, ?_⟩
    · rw [createBookHandler_accepts booksApp b w hok]
      rcases hr : booksApp.Store.CreateBook b w with ⟨r, w1⟩
      rw [hr] at hs
      simp only at hs
      subst hs
      rfl
    · rw [hid]; omega
    · intro k
      rw [(heqk k).1]
      exact hins
    · have key : (booksApp.createBookHandler (.ok b) w).2 = (booksApp.Store.CreateBook b w).2 := by
        rw [createBookHandler_accepts booksApp b w hok]
        rcases hr : booksApp.Store.CreateBook b w with ⟨r, w1⟩
        cases r <;> rfl
      rw [key, heq.2]
      have h2b : (booksApp.Store.DB.insertReturning b.Title b.Author b.Year w.db).2.rows =
          w.db.rows ++ [⟨((w.db.seq + 1 : Nat) : Int), b.Title, b.Author, b.Year⟩] := h2
      rw [h2b, hid]
      simp

/-! ## List -/

theorem getAllBooksHandler_no_rows {σ : Type} (a : App σ) (w : World σ) (d : σ)
    (h : a.Store.DB.selectAll w.db = (.ok { scans := [], err := none }, d)) :
    (a.Store.GetAllBooks w).1 = (none, none) ∧
    (a.getAllBooksHandler w).1 = writeJSON StatusOK .null := by
  have hs : a.Store.GetAllBooks w = ((none, none), { w.record .GetAllBooks with db := d }) := by
    unfold Store.GetAllBooks
    simp only [World.record] at h ⊢
    rw [h]
    rfl
  refine ⟨by rw [hs], ?_⟩
  unfold App.getAllBooksHandler
  rw [hs]
  rfl

/-- C4: listing the books table when it has no rows. `GetAllBooks` returns the
nil slice (length 0) and no error, and `getAllBooksHandler` answers 200, but
the body it writes is the JSON value `null`, not the empty array; with one
stored row the same handler writes an array. -/
theorem getAllBooksHandler_empty_table_null :
    (booksApp.Store.GetAllBooks (emptyWorld [])).1 = (none, none) ∧
    GoSlice.len (booksApp.Store.GetAllBooks (emptyWorld [])).1.1 = 0 ∧
    (booksApp.getAllBooksHandler (emptyWorld [])).1.status = 200 ∧
    (booksApp.getAllBooksHandler (emptyWorld [])).1.body = some JSON.null ∧
    (booksApp.getAllBooksHandler (emptyWorld [])).1.body ≠ some (JSON.arr []) ∧
    (booksApp.getAllBooksHandler orwellWorld).1.body =
      some (JSON.arr [Book.toJSON ⟨1, "1984", "George Orwell", 1949⟩]) := by
  refine ⟨rfl, rfl, rfl, rfl, ?_, rfl⟩
  intro h
  have h2 : some JSON.null = some (JSON.arr []) := h
  cases h2

/-! ## Delete, update and fetch over a healthy table -/

theorem Store.DeleteBook_table (n : Int) (w : World Table) (hf : w.db.faults = []) :
    booksApp.Store.DeleteBook n w =
      (if ((w.db.rows.countP (fun r => decide (r.ID = n)) : Nat) : Int) = 0
        then some .ErrNoRows else none,
       { db := { w.db with rows := w.db.rows.filter (fun r => !decide (r.ID = n)) },
         calls := w.calls ++ [.DeleteBook n] }) := by
  unfold Store.DeleteBook
  simp only [World.record]
  have h := Table.execDelete_healthy n w.db hf
  have h2 : booksApp.Store.DB.execDelete n w.db = Table.execDelete n w.db := rfl
  rw [h2, h]
  simp only
  split <;> rfl

theorem Store.UpdateBook_table (n : Int) (b : Book) (w : World Table)
    (hf : w.db.faults = []) :
    booksApp.Store.UpdateBook n b w =
      (if ((w.db.rows.countP (fun r => decide (r.ID = n)) : Nat) : Int) = 0
        then some .ErrNoRows else none,
       { db := { w.db with rows := w.db.rows.map (fun r =>
            if r.ID = n then { r with Title := b.Title, Author := b.Author, Year := b.Year }
            else r) },
         calls := w.calls ++ [.UpdateBook n b] }) := by
  unfold Store.UpdateBook
  simp only [World.record]
  have h := Table.execUpdate_healthy b.Title b.Author b.Year n w.db hf
  have h2 : booksApp.Store.DB.execUpdate b.Title b.Author b.Year n w.db =
      Table.execUpdate b.Title b.Author b.Year n w.db := rfl
  rw [h2, h]
  simp only
  split <;> rfl

theorem Store.GetBookByID_eq {σ : Type} (s : Store σ) (id : Int) (w : World σ) :
    (s.GetBookByID id w).1 = (s.DB.selectByID id w.db).1 ∧
    (s.GetBookByID id w).2.db = (s.DB.selectByID id w.db).2 := by
  unfold Store.GetBookByID World.record
  dsimp only
  generalize s.DB.selectByID id w.db = row
  rcases row with ⟨r, d⟩
  cases r with
  | error e => cases e <;> exact ⟨rfl, rfl⟩
  | ok bk => exact ⟨rfl, rfl⟩

theorem Store.GetBookByID_table (n : Int) (w : World Table) (hf : w.db.faults = []) :
    (booksApp.Store.GetBookByID n w).1 =
      match w.db.rows.find? (fun r => decide (r.ID = n)) with
      | none => .error .ErrNoRows
      | some r => .ok r := by
  rw [(Store.GetBookByID_eq booksApp.Store n w).1]
  have h2 : booksApp.Store.DB.selectByID n w.db = Table.selectByID n w.db := rfl
  rw [h2, Table.selectByID_healthy n w.db hf]
  cases w.db.rows.find? (fun r => decide (r.ID = n)) <;> rfl

theorem find_after_delete (rows : List Book) (n : Int) :
    (rows.filter (fun r => !decide (r.ID = n))).find? (fun r => decide (r.ID = n)) = none := by
  rw [List.find?_eq_none]
  intro x hx
  have := (List.mem_filter.1 hx).2
  simpa using this

theorem filter_absent (rows : List Book) (n : Int) (h : ¬ ∃ r ∈ rows, r.ID = n) :
    rows.filter (fun r => !decide (r.ID = n)) = rows := by
  rw [List.filter_eq_self]
  intro x hx
  have : x.ID ≠ n := fun hxn => h ⟨x, hx, hxn⟩
  simpa using this

theorem map_absent (rows : List Book) (n : Int) (f : Book → Book)
    (h : ¬ ∃ r ∈ rows, r.ID = n) :
    rows.map (fun r => if r.ID = n then f r else r) = rows := by
  induction rows with
  | nil => rfl
  | cons r rs ih =>
    have hr : r.ID ≠ n := fun hrn => h ⟨r, List.mem_cons_self _ _, hrn⟩
    have hrs : ¬ ∃ x ∈ rs, x.ID = n := fun ⟨x, hx, hxn⟩ => h ⟨x, List.mem_cons_of_mem _ hx, hxn⟩
    simp only [List.map_cons, hr, if_false, ih hrs]

theorem find_after_update (rows : List Book) (n : Int) (title author : String) (year : Int)
    (h : ∃ r ∈ rows, r.ID = n) :
    (rows.map (fun r =>
        if r.ID = n then { r with Title := title, Author := author, Year := year } else r)).find?
      (fun r => decide (r.ID = n)) = some ⟨n, title, author, year⟩ := by
  induction rows with
  | nil => obtain ⟨r, hr, _⟩ := h; cases hr
  | cons r rs ih =>
    by_cases hr : r.ID = n
    · simp [hr]
    · have hrs : ∃ x ∈ rs, x.ID = n := by
        obtain ⟨x, hx, hxn⟩ := h
        rcases List.mem_cons.1 hx with rfl | hx
        · exact absurd hxn hr
        · exact ⟨x, hx, hxn⟩
      simp only [List.map_cons, hr, if_false, List.find?_cons, decide_False]
      exact ih hrs

theorem others_after_update (rows : List Book) (n : Int) (f : Book → Book)
    (hf : ∀ r, (f r).ID = r.ID) :
    (rows.map (fun r => if r.ID = n then f r else r)).filter (fun r => !decide (r.ID = n)) =
      rows.filter (fun r => !decide (r.ID = n)) ∧
    (rows.map (fun r => if r.ID = n then f r else r)).map Book.ID = rows.map Book.ID := by
  induction rows with
  | nil => exact ⟨rfl, rfl⟩
  | cons r rs ih =>
    by_cases hr : r.ID = n
    · have h1 : (f r).ID = n := by rw [hf, hr]
      simp [hr, h1, ih.1, ih.2]
    · simp [hr, ih.1, ih.2]

/-- C7: over the books table with no failure scheduled, a delete request for an
id that is stored is answered 204 with no body and a fetch of that id right
after it is answered 404; a delete request for an id that is not stored is
answered 404 and leaves the table as it was. -/
theorem delete_then_fetch (idStr : String) (n : Int) (w : World Table)
    (hid : ParseInt idStr = .ok n) (hf : w.db.faults = []) :
    ((∃ r ∈ w.db.rows, r.ID = n) →
      (booksApp.deleteBookHandler idStr w).1 =
        { status := 204, header := [], body := none } ∧
      (booksApp.getBookHandler idStr (booksApp.deleteBookHandler idStr w).2).1.status = 404) ∧
    ((¬ ∃ r ∈ w.db.rows, r.ID = n) →
      (booksApp.deleteBookHandler idStr w).1.status = 404 ∧
      (booksApp.deleteBookHandler idStr w).2.db = w.db) := by
  have hD := Store.DeleteBook_table n w hf
  constructor
  · intro hp
    have hc : ¬ ((w.db.rows.countP (fun r => decide (r.ID = n)) : Nat) : Int) = 0 := by
      rw [countP_id_eq_zero_iff]; exact not_not.2 hp
    rw [if_neg hc] at hD
    have hdel : booksApp.deleteBookHandler idStr w =
        ({ status := 204, header := [], body := none },
         { db := { w.db with rows := w.db.rows.filter (fun r => !decide (r.ID = n)) },
           calls := w.calls ++ [.DeleteBook n] }) := by
      unfold App.deleteBookHandler
      simp only [hid]
      rw [hD]
    rw [hdel]
    refine ⟨rfl, ?_⟩
    have hf2 : ({ db := { w.db with rows := w.db.rows.filter (fun r => !decide (r.ID = n)) },
                  calls := w.calls ++ [.DeleteBook n] } : World Table).db.faults = [] := hf
    show (booksApp.getBookHandler idStr
      { db := { w.db with rows := w.db.rows.filter (fun r => !decide (r.ID = n)) },
        calls := w.calls ++ [.DeleteBook n] }).1.status = 404
    rw [getBookHandler_status booksApp idStr n _ hid, Store.GetBookByID_table n _ hf2]
    simp only [find_after_delete]
    rfl
  · intro hp
    have hc : ((w.db.rows.countP (fun r => decide (r.ID = n)) : Nat) : Int) = 0 := by
      rw [countP_id_eq_zero_iff]; exact hp
    rw [if_pos hc, filter_absent w.db.rows n hp] at hD
    have hdel : booksApp.deleteBookHandler idStr w =
        (writeError StatusNotFound "book not found",
         { db := w.db, calls := w.calls ++ [.DeleteBook n] }) := by
      unfold App.deleteBookHandler
      simp only [hid]
      rw [hD]
      rfl
    rw [hdel]
    exact ⟨rfl, rfl⟩

/-- C8: over the books table with no failure scheduled and a valid body, an
update request for a stored id `n` is answered 200 with the book of id `n`
(the path id) and the title, author and year of the body, a fetch of `n`
right after it returns that book, and the rows of every other id, and the
ids of all rows, are as before; an update request for an id that is not
stored is answered 404 and leaves the table as it was. -/
theorem update_then_fetch (idStr : String) (n : Int) (b : Book) (w : World Table)
    (hid : ParseInt idStr = .ok n) (hf : w.db.faults = [])
    (hv : b.Title ≠ "" ∧ b.Author ≠ "" ∧ b.Year > 0) :
    ((∃ r ∈ w.db.rows, r.ID = n) →
      (booksApp.updateBookHandler idStr (.ok b) w).1 =
        writeJSON 200 (Book.toJSON ⟨n, b.Title, b.Author, b.Year⟩) ∧
      (booksApp.getBookHandler idStr (booksApp.updateBookHandler idStr (.ok b) w).2).1 =
        writeJSON 200 (Book.toJSON ⟨n, b.Title, b.Author, b.Year⟩) ∧
      (booksApp.updateBookHandler idStr (.ok b) w).2.db.rows.filter
          (fun r => !decide (r.ID = n)) =
        w.db.rows.filter (fun r => !decide (r.ID = n)) ∧
      (booksApp.updateBookHandler idStr (.ok b) w).2.db.rows.map Book.ID =
        w.db.rows.map Book.ID) ∧
    ((¬ ∃ r ∈ w.db.rows, r.ID = n) →
      (booksApp.updateBookHandler idStr (.ok b) w).1.status = 404 ∧
      (booksApp.updateBookHandler idStr (.ok b) w).2.db = w.db) := by
  have hok := (validateBookInput_ok_iff b).2 hv
  have hU := Store.UpdateBook_table n b w hf
  constructor
  · intro hp
    have hc : ¬ ((w.db.rows.countP (fun r => decide (r.ID = n)) : Nat) : Int) = 0 := by
      rw [countP_id_eq_zero_iff]; exact not_not.2 hp
    rw [if_neg hc] at hU
    have hf2 : (booksApp.Store.UpdateBook n b w).2.db.faults = [] := by rw [hU]; exact hf
    have hrows : (booksApp.Store.UpdateBook n b w).2.db.rows = w.db.rows.map (fun r =>
        if r.ID = n then { r with Title := b.Title, Author := b.Author, Year := b.Year }
        else r) := by rw [hU]
    have hupd : booksApp.updateBookHandler idStr (.ok b) w =
        (writeJSON 200 (Book.toJSON ⟨n, b.Title, b.Author, b.Year⟩),
         (booksApp.Store.UpdateBook n b w).2) := by
      rw [updateBookHandler_accepts booksApp idStr n b w hid hok, hU]
    rw [hupd]
    have hothers := others_after_update w.db.rows n
      (fun r => { r with Title := b.Title, Author := b.Author, Year := b.Year }) (fun _ => rfl)
    refine ⟨rfl, ?_, ?_, ?_⟩
    · have hget := Store.GetBookByID_table n _ hf2
      rw [hrows] at hget
      simp only [find_after_update w.db.rows n b.Title b.Author b.Year hp] at hget
      show (booksApp.getBookHandler idStr (booksApp.Store.UpdateBook n b w).2).1 = _
      unfold App.getBookHandler
      simp only [hid]
      rcases hr : booksApp.Store.GetBookByID n (booksApp.Store.UpdateBook n b w).2 with ⟨r, w1⟩
      rw [hr] at hget
      simp only at hget
      subst hget
      rfl
    · show (booksApp.Store.UpdateBook n b w).2.db.rows.filter _ = _
      rw [hrows]
      exact hothers.1
    · show (booksApp.Store.UpdateBook n b w).2.db.rows.map _ = _
      rw [hrows]
      exact hothers.2
  · intro hp
    have hc : ((w.db.rows.countP (fun r => decide (r.ID = n)) : Nat) : Int) = 0 := by
      rw [countP_id_eq_zero_iff]; exact hp
    rw [if_pos hc, map_absent w.db.rows n _ hp] at hU
    have hupd : booksApp.updateBookHandler idStr (.ok b) w =
        (writeError StatusNotFound "book not found",
         { db := w.db, calls := w.calls ++ [.UpdateBook n b] }) := by
      rw [updateBookHandler_accepts booksApp idStr n b w hid hok, hU]
      rfl
    rw [hupd]
    exact ⟨rfl, rfl⟩

/-! ## The stored rows stay valid -/

theorem Table.selectByID_rows (id : Int) (t : Table) :
    (Table.selectByID id t).2.rows = t.rows := by
  unfold Table.selectByID Table.nextFault
  cases t.faults with
  | nil => dsimp only; split <;> rfl
  | cons f fs =>
    cases f with
    | none => dsimp only; split <;> rfl
    | some d => rfl

theorem Table.selectAll_rows (t : Table) : (Table.selectAll t).2.rows = t.rows := by
  unfold Table.selectAll Table.nextFault
  cases t.faults with
  | nil => rfl
  | cons f fs => cases f <;> rfl

theorem Table.execUpdate_rows (title author : String) (year : Int) (id : Int) (t : Table) :
    (Table.execUpdate title author year id t).2.rows = t.rows ∨
    (Table.execUpdate title author year id t).2.rows = t.rows.map (fun r =>
      if r.ID = id then { r with Title := title, Author := author, Year := year } else r) := by
  unfold Table.execUpdate Table.nextFault
  cases t.faults with
  | nil => exact Or.inr rfl
  | cons f fs =>
    cases f with
    | none => exact Or.inr rfl
    | some d => exact Or.inl rfl

theorem Table.execDelete_rows (id : Int) (t : Table) :
    (Table.execDelete id t).2.rows = t.rows ∨
    (Table.execDelete id t).2.rows = t.rows.filter (fun r => !decide (r.ID = id)) := by
  unfold Table.execDelete Table.nextFault
  cases t.faults with
  | nil => exact Or.inr rfl
  | cons f fs =>
    cases f with
    | none => exact Or.inr rfl
    | some d => exact Or.inl rfl

theorem Store.GetAllBooks_db {σ : Type} (s : Store σ) (w : World σ) :
    (s.GetAllBooks w).2.db = (s.DB.selectAll w.db).2 := by
  unfold Store.GetAllBooks
  simp only [World.record]
  rcases s.DB.selectAll w.db with ⟨r, d⟩
  cases r with
  | error e => rfl
  | ok rows => dsimp only; split <;> rfl

theorem Store.UpdateBook_db {σ : Type} (s : Store σ) (id : Int) (b : Book) (w : World σ) :
    (s.UpdateBook id b w).2.db = (s.DB.execUpdate b.Title b.Author b.Year id w.db).2 := by
  unfold Store.UpdateBook
  simp only [World.record]
  rcases s.DB.execUpdate b.Title b.Author b.Year id w.db with ⟨r, d⟩
  cases r with
  | error e => rfl
  | ok r2 =>
    cases r2 with
    | error e => rfl
    | ok k => dsimp only; split <;> rfl

theorem Store.DeleteBook_db {σ : Type} (s : Store σ) (id : Int) (w : World σ) :
    (s.DeleteBook id w).2.db = (s.DB.execDelete id w.db).2 := by
  unfold Store.DeleteBook
  simp only [World.record]
  rcases s.DB.execDelete id w.db with ⟨r, d⟩
  cases r with
  | error e => rfl
  | ok r2 =>
    cases r2 with
    | error e => rfl
    | ok k => dsimp only; split <;> rfl

theorem createBookHandler_keeps_valid (body : Except GoError Book) (w : World Table)
    (h : ∀ x ∈ w.db.rows, x.valid) :
    ∀ x ∈ (booksApp.createBookHandler body w).2.db.rows, x.valid := by
  cases body with
  | error e => exact h
  | ok b =>
    by_cases hb : (validateBookInput b).1 = StatusOK
    · rw [createBookHandler_world booksApp b w hb, (Store.CreateBook_eq booksApp.Store b w).2]
      have hv := (validateBookInput_ok_iff b).1 hb
      have hcase := Table.insertReturning_cases b.Title b.Author b.Year w.db
      have h2 : booksApp.Store.DB.insertReturning b.Title b.Author b.Year w.db =
          Table.insertReturning b.Title b.Author b.Year w.db := rfl
      rw [h2]
      rcases hcase with ⟨d, _, hrows⟩ | ⟨_, hrows⟩
      · rw [hrows]; exact h
      · rw [hrows]
        intro x hx
        rcases List.mem_append.1 hx with hx | hx
        · exact h x hx
        · rw [List.mem_singleton] at hx
          subst hx
          exact hv
    · rw [createBookHandler_rejects booksApp b w hb]
      exact h

theorem updateBookHandler_keeps_valid (idStr : String) (body : Except GoError Book)
    (w : World Table) (h : ∀ x ∈ w.db.rows, x.valid) :
    ∀ x ∈ (booksApp.updateBookHandler idStr body w).2.db.rows, x.valid := by
  cases hid : ParseInt idStr with
  | error e =>
    have : booksApp.updateBookHandler idStr body w = (writeError 400 "invalid id", w) := by
      unfold App.updateBookHandler
      simp only [hid]
    rw [this]; exact h
  | ok id =>
    cases body with
    | error e =>
      have : booksApp.updateBookHandler idStr (.error e) w =
          (writeError 400 "invalid JSON", w) := by
        unfold App.updateBookHandler
        simp only [hid]
      rw [this]; exact h
    | ok b =>
      by_cases hb : (validateBookInput b).1 = StatusOK
      · rw [updateBookHandler_world booksApp idStr id b w hid hb,
          Store.UpdateBook_db booksApp.Store id b w]
        have hv := (validateBookInput_ok_iff b).1 hb
        have h2 : booksApp.Store.DB.execUpdate b.Title b.Author b.Year id w.db =
            Table.execUpdate b.Title b.Author b.Year id w.db := rfl
        rw [h2]
        rcases Table.execUpdate_rows b.Title b.Author b.Year id w.db with hrows | hrows
        · rw [hrows]; exact h
        · rw [hrows]
          intro x hx
          obtain ⟨r, hr, hrx⟩ := List.mem_map.1 hx
          by_cases hri : r.ID = id
          · rw [if_pos hri] at hrx
            subst hrx
            exact hv
          · rw [if_neg hri] at hrx
            subst hrx
            exact h r hr
      · rw [updateBookHandler_rejects booksApp idStr id b w hid hb]
        exact h

theorem deleteBookHandler_keeps_valid (idStr : String) (w : World Table)
    (h : ∀ x ∈ w.db.rows, x.valid) :
    ∀ x ∈ (booksApp.deleteBookHandler idStr w).2.db.rows, x.valid := by
  cases hid : ParseInt idStr with
  | error e =>
    have : booksApp.deleteBookHandler idStr w = (writeError 400 "invalid id", w) := by
      unfold App.deleteBookHandler
      simp only [hid]
    rw [this]; exact h
  | ok id =>
    rw [deleteBookHandler_world booksApp idStr id w hid, Store.DeleteBook_db booksApp.Store id w]
    have h2 : booksApp.Store.DB.execDelete id w.db = Table.execDelete id w.db := rfl
    rw [h2]
    rcases Table.execDelete_rows id w.db with hrows | hrows
    · rw [hrows]; exact h
    · rw [hrows]
      intro x hx
      exact h x (List.mem_filter.1 hx).1

theorem getBookHandler_keeps_rows (idStr : String) (w : World Table) :
    (booksApp.getBookHandler idStr w).2.db.rows = w.db.rows := by
  cases hid : ParseInt idStr with
  | error e =>
    have : booksApp.getBookHandler idStr w = (writeError 400 "invalid id", w) := by
      unfold App.getBookHandler
      simp only [hid]
    rw [this]
  | ok id =>
    rw [getBookHandler_world booksApp idStr id w hid,
      (Store.GetBookByID_eq booksApp.Store id w).2]
    exact Table.selectByID_rows id w.db

theorem getAllBooksHandler_keeps_rows (w : World Table) :
    (booksApp.getAllBooksHandler w).2.db.rows = w.db.rows := by
  rw [getAllBooksHandler_world booksApp w, Store.GetAllBooks_db booksApp.Store w]
  exact Table.selectAll_rows w.db

theorem Routes_keeps_valid (r : Request) (w : World Table) (h : ∀ x ∈ w.db.rows, x.valid) :
    ∀ x ∈ (booksApp.Routes r w).2.db.rows, x.valid := by
  cases r with
  | create body => exact createBookHandler_keeps_valid body w h
  | list =>
    show ∀ x ∈ (booksApp.getAllBooksHandler w).2.db.rows, x.valid
    rw [getAllBooksHandler_keeps_rows]; exact h
  | get idStr =>
    show ∀ x ∈ (booksApp.getBookHandler idStr w).2.db.rows, x.valid
    rw [getBookHandler_keeps_rows]; exact h
  | update idStr body => exact updateBookHandler_keeps_valid idStr body w h
  | delete idStr => exact deleteBookHandler_keeps_valid idStr w h

theorem serve_keeps_valid (reqs : List Request) (w : World Table)
    (h : ∀ x ∈ w.db.rows, x.valid) :
    ∀ x ∈ (booksApp.serve reqs w).db.rows, x.valid := by
  induction reqs generalizing w with
  | nil => exact h
  | cons r rs ih => exact ih _ (Routes_keeps_valid r w h)

/-- C9: starting from the empty books table, after any sequence of create, list,
get, update and delete requests served by the five handlers, under any
schedule of statement failures, every stored book has a non-empty title, a
non-empty author and a positive year. -/
theorem persisted_books_valid (reqs : List Request) (faults : List (Option String)) :
    ∀ x ∈ (booksApp.serve reqs (emptyWorld faults)).db.rows,
      x.Title ≠ "" ∧ x.Author ≠ "" ∧ x.Year > 0 :=
  serve_keeps_valid reqs (emptyWorld faults) (fun _ hx => nomatch hx)

/-! ## Instances on the end-to-end scenario -/

/-- Instance of C2: a create request with an empty title on the empty table. -/
theorem createBookHandler_invalid_not_persisted_witness :
    (("" : String) = "" ∨ "George Orwell" = "" ∨ (1949 : Int) ≤ 0) ∧
    (booksApp.createBookHandler (.ok ⟨0, "", "George Orwell", 1949⟩) (emptyWorld [])).1.status
      = 400 ∧
    (booksApp.createBookHandler (.ok ⟨0, "", "George Orwell", 1949⟩) (emptyWorld [])).2.calls
      = (emptyWorld []).calls ∧
    (booksApp.createBookHandler (.ok ⟨0, "", "George Orwell", 1949⟩) (emptyWorld [])).2.db
      = (emptyWorld []).db :=
  ⟨Or.inl rfl,
   createBookHandler_invalid_not_persisted booksApp ⟨0, "", "George Orwell", 1949⟩
     (emptyWorld []) (Or.inl rfl)⟩

/-- Instance of C3: the first create of the scenario, with a stray id 7 in the
body, is answered with id 1. -/
theorem createBookHandler_created_witness :
    (("1984" : String) ≠ "" ∧ ("George Orwell" : String) ≠ "" ∧ (1949 : Int) > 0) ∧
    (booksApp.Store.CreateBook ⟨7, "1984", "George Orwell", 1949⟩ (emptyWorld [])).1 = .ok 1 ∧
    (booksApp.createBookHandler (.ok ⟨7, "1984", "George Orwell", 1949⟩) (emptyWorld [])).1 =
      writeJSON 201 (Book.toJSON ⟨1, "1984", "George Orwell", 1949⟩) ∧
    (1 : Int) ≠ 0 :=
  ⟨by decide, rfl,
   (createBookHandler_created ⟨7, "1984", "George Orwell", 1949⟩ (emptyWorld []) 1
     (by decide) rfl).1,
   (createBookHandler_created ⟨7, "1984", "George Orwell", 1949⟩ (emptyWorld []) 1
     (by decide) rfl).2.1⟩

/-- Instance of C5: requests for id 1 against the table of the scenario. -/
theorem handlers_status_from_store_witness :
    ParseInt "1" = .ok 1 ∧
    (validateBookInput ⟨0, "Nineteen Eighty-Four", "George Orwell", 1949⟩).1 = StatusOK ∧
    ((booksApp.getBookHandler "1" orwellWorld).1.status = 200 ↔
      ∃ bk, (booksApp.Store.GetBookByID 1 orwellWorld).1 = .ok bk) :=
  ⟨rfl, rfl,
   (handlers_status_from_store booksApp "1" 1 ⟨0, "Nineteen Eighty-Four", "George Orwell", 1949⟩
     orwellWorld rfl rfl).1.2.2⟩

/-- Instance of C6: the path id `abc`. -/
theorem invalid_id_bad_request_witness :
    isBase10Integer "abc" = false ∧
    booksApp.getBookHandler "abc" orwellWorld = (writeError 400 "invalid id", orwellWorld) ∧
    booksApp.updateBookHandler "abc" (.ok ⟨0, "Nineteen Eighty-Four", "George Orwell", 1949⟩)
      orwellWorld = (writeError 400 "invalid id", orwellWorld) ∧
    booksApp.deleteBookHandler "abc" orwellWorld = (writeError 400 "invalid id", orwellWorld) :=
  ⟨rfl,
   invalid_id_bad_request booksApp "abc" (.ok ⟨0, "Nineteen Eighty-Four", "George Orwell", 1949⟩)
     orwellWorld rfl⟩

/-- Instance of C7: deleting book 1 of the scenario, then fetching it. -/
theorem delete_then_fetch_witness :
    ParseInt "1" = .ok 1 ∧ orwellWorld.db.faults = [] ∧
    (∃ r ∈ orwellWorld.db.rows, r.ID = 1) ∧
    (booksApp.deleteBookHandler "1" orwellWorld).1 =
      { status := 204, header := [], body := none } ∧
    (booksApp.getBookHandler "1" (booksApp.deleteBookHandler "1" orwellWorld).2).1.status
      = 404 :=
  ⟨rfl, rfl, ⟨_, List.mem_singleton_self _, rfl⟩,
   (delete_then_fetch "1" 1 orwellWorld rfl rfl).1 ⟨_, List.mem_singleton_self _, rfl⟩⟩

/-- Instance of C8: the update of the scenario, then a fetch. -/
theorem update_then_fetch_witness :
    ParseInt "1" = .ok 1 ∧ orwellWorld.db.faults = [] ∧
    (("Nineteen Eighty-Four" : String) ≠ "" ∧ ("George Orwell" : String) ≠ "" ∧
      (1949 : Int) > 0) ∧
    (∃ r ∈ orwellWorld.db.rows, r.ID = 1) ∧
    (booksApp.updateBookHandler "1" (.ok ⟨0, "Nineteen Eighty-Four", "George Orwell", 1949⟩)
        orwellWorld).1 =
      writeJSON 200 (Book.toJSON ⟨1, "Nineteen Eighty-Four", "George Orwell", 1949⟩) ∧
    (booksApp.getBookHandler "1"
        (booksApp.updateBookHandler "1"
          (.ok ⟨0, "Nineteen Eighty-Four", "George Orwell", 1949⟩) orwellWorld).2).1 =
      writeJSON 200 (Book.toJSON ⟨1, "Nineteen Eighty-Four", "George Orwell", 1949⟩) :=
  ⟨rfl, rfl, by decide, ⟨_, List.mem_singleton_self _, rfl⟩,
   ((update_then_fetch "1" 1 ⟨0, "Nineteen Eighty-Four", "George Orwell", 1949⟩ orwellWorld
      rfl rfl (by decide)).1 ⟨_, List.mem_singleton_self _, rfl⟩).1,
   ((update_then_fetch "1" 1 ⟨0, "Nineteen Eighty-Four", "George Orwell", 1949⟩ orwellWorld
      rfl rfl (by decide)).1 ⟨_, List.mem_singleton_self _, rfl⟩).2.1⟩

/-- Instance of C9: a create, a rejected create, a failing update and a second
create leave two stored books; the first is valid. -/
theorem persisted_books_valid_witness :
    (⟨1, "1984", "George Orwell", 1949⟩ : Book) ∈
      (booksApp.serve
        [.create (.ok ⟨0, "1984", "George Orwell", 1949⟩),
         .create (.ok ⟨0, "", "George Orwell", 1949⟩),
         .update "1" (.ok ⟨0, "Nineteen Eighty-Four", "George Orwell", 1949⟩),
         .create (.ok ⟨0, "Animal Farm", "George Orwell", 1945⟩)]
        (emptyWorld [none, some "connection refused"])).db.rows ∧
    (("1984" : String) ≠ "" ∧ ("George Orwell" : String) ≠ "" ∧ (1949 : Int) > 0) :=
  ⟨by decide,
   persisted_books_valid
     [.create (.ok ⟨0, "1984", "George Orwell", 1949⟩),
      .create (.ok ⟨0, "", "George Orwell", 1949⟩),
      .update "1" (.ok ⟨0, "Nineteen Eighty-Four", "George Orwell", 1949⟩),
      .create (.ok ⟨0, "Animal Farm", "George Orwell", 1945⟩)]
     [none, some "connection refused"] ⟨1, "1984", "George Orwell", 1949⟩ (by decide)⟩

end GoBooks
